import Mathlib

/-!
Shallow embedding of the jqftu quiz-session engine
(src/muika/modules/jqftu/Session.cpp and its headers).

Modelling conventions:
* C++ `int64_t` chat ids and user ids are `Int`; `uint32_t` points are `Nat`
  reduced mod 2^32 where the code increments them.
* `std::unordered_map` is an insertion-ordered association list
  (`emplace` appends when the key is absent, never overwrites).  Its
  iteration order is unspecified by the C++ standard, so every place the
  code iterates the map (final ranking, serialization) takes the
  enumeration as an explicit argument constrained to be a permutation of
  the association list.
* `std::sort` guarantees only that the result is a permutation of the
  input that is sorted with respect to the comparator; it is not stable.
  It is therefore modelled by the predicate `IsFinalRanking` rather than
  by a particular algorithm.
* The filesystem is a map from chat id to file content (one snapshot
  file `s_<chatid>.json` per chat id); `fwrite`'s actually-written length
  is an explicit parameter of the checkpoint model.
* nlohmann JSON values are the inductive `Json`; the library's
  `dump`/`parse` pair is external to the repository, so persistence
  claims are settled at the `Json`-value level, with a shape-specific
  dump used only where the code compares written byte counts.
-/

namespace MuikaJqftu

/-- First-match lookup in an association list (model of `find`/`at` on the
C++ map types used by the module). -/
def slookup {κ α : Type} [DecidableEq κ] (k : κ) : List (κ × α) → Option α
  | [] => none
  | (k', v) :: rest => if k = k' then some v else slookup k rest

/-- Erase the first entry with the given key (model of `map::erase`). -/
def eraseKey {κ α : Type} [DecidableEq κ] (k : κ) : List (κ × α) → List (κ × α)
  | [] => []
  | (k', v) :: rest => if k = k' then rest else (k', v) :: eraseKey k rest

/-- Replace the first entry with the given key, or append a new one
(model of overwriting a file / `operator[]` style update). -/
def setKey {κ α : Type} [DecidableEq κ] (k : κ) (v : α) : List (κ × α) → List (κ × α)
  | [] => [(k, v)]
  | (k', v') :: rest => if k = k' then (k, v) :: rest else (k', v') :: setKey k v rest

/-- Apply `f` to the value of the first entry with the given key
(model of mutating the pointed-to object through a map iterator). -/
def updateAt {κ α : Type} [DecidableEq κ] (k : κ) (f : α → α) : List (κ × α) → List (κ × α)
  | [] => []
  | (k', v) :: rest => if k = k' then (k', f v) :: rest else (k', v) :: updateAt k f rest

/-- `struct Score` from Session.hpp: point count, display full name,
display username (field names as in the source). -/
structure Score where
  point_ : Nat
  full_name_ : String
  username_ : String
deriving DecidableEq, Repr

/-- A quiz `Card`: question text, the opaque answer-correctness
predicate, and the answer-info text shown when the card is resolved. -/
structure Card where
  question : String
  checkAnswer : String → Bool
  answerInfo : String

/-- A `Deck`: name plus the cards not yet drawn (the drawn/novel cursor
state of the concrete deck classes).  `draw` returns the head,
`isFinished` tests emptiness. -/
structure DeckT where
  name : String
  remaining : List Card

def DeckT.isFinished (d : DeckT) : Bool := d.remaining.isEmpty

def DeckT.draw (d : DeckT) : Option Card × DeckT :=
  match d.remaining with
  | [] => (none, d)
  | c :: rest => (some c, { d with remaining := rest })

/-- Modelled from the spec: the concrete content of the tozai_line deck
(decks/tozai_line/Deck.cpp is not part of the given sources, and the
spec places deck content out of scope).  A representative small card
list standing for the loaded deck. -/
def tozaiCards : List Card :=
  [⟨"q1", fun a => a == "a1", "info1"⟩,
   ⟨"q2", fun a => a == "a2", "info2"⟩,
   ⟨"q3", fun a => a == "a3", "info3"⟩]

/-- Modelled from the spec: `Deck::createDeck(name)` selects a concrete
deck variant by name and loads/validates it; an unknown deck name fails
validation (the exception caught in `Session::createSession`), which the
model renders as `none`.  The only deck variant in the given sources is
`tozai_line`. -/
def createDeck (name : String) : Option DeckT :=
  if name = "tozai_line" then some ⟨"tozai_line", tozaiCards⟩ else none

/-- The mutable per-session state of `class Session` (Session.hpp):
chat id, owned deck, scoreboard, nullable in-flight card, stop flag,
timeout and inter-card delay seconds, last sent message id. -/
structure SessionT where
  chat_id_ : Int
  deck_ : DeckT
  scores_ : List (Int × Score)
  current_card_ : Option Card
  should_stop_ : Bool
  timeout_ : Nat
  next_delay_ : Nat
  last_msg_id_ : Int

/-- Modelled from the spec: the default timeout seconds a freshly
constructed Session starts with (the member initializer lives in the
missing Session.hpp; the spec's example uses 30). -/
def defaultTimeout : Nat := 30

/-- Modelled from the spec: the default inter-card delay seconds of a
fresh Session (member initializer in the missing Session.hpp; the
spec's example uses 5). -/
def defaultNextDelay : Nat := 5

/-- `Session::Session(m, chat_id, deck_name)`: stores the chat id and
creates the named deck; scoreboard empty, no in-flight card.  Returns
`none` when deck creation fails (the constructor throws). -/
def newSession (chat_id : Int) (deck_name : String) : Option SessionT :=
  match createDeck deck_name with
  | none => none
  | some d =>
    some { chat_id_ := chat_id, deck_ := d, scores_ := [], current_card_ := none,
           should_stop_ := false, timeout_ := defaultTimeout,
           next_delay_ := defaultNextDelay, last_msg_id_ := 0 }

/-- A heap cell: a live `Session` object together with its intrusive
`ref_count_`.  The heap key plays the role of the `Session *` address. -/
structure SessionObj where
  sess : SessionT
  ref_count_ : Nat

/-- The global registry state: the allocated `Session` objects (the
process heap, keyed by address) and the `g_sessions` map from chat id to
address.  An address present in `map` but absent from `heap` would be a
dangling pointer; the operations below never create one. -/
structure RegistryState where
  heap : List (Nat × SessionObj)
  map : List (Int × Nat)

/-- A fresh heap address (model of `new` returning a pointer distinct
from every live object). -/
def freshAddr (st : RegistryState) : Nat :=
  (st.heap.map Prod.fst).foldr max 0 + 1

/-- `Session::getSession(chat_id)`: look the chat id up in `g_sessions`;
on a hit, increment the session's reference count and return its
address, otherwise return null. -/
def getSession (st : RegistryState) (chat_id : Int) : Option Nat × RegistryState :=
  match slookup chat_id st.map with
  | none => (none, st)
  | some a =>
    (some a, { st with heap := updateAt a (fun o => { o with ref_count_ := o.ref_count_ + 1 }) st.heap })

/-- `Session::putSession(sess)`: `if (sess->ref_count_-- == 1) delete sess;`
— decrement the count; when the pre-decrement value was 1 the object is
freed (removed from the heap). -/
def putSession (st : RegistryState) (a : Nat) : RegistryState :=
  match slookup a st.heap with
  | none => st
  | some o =>
    if o.ref_count_ = 1 then { st with heap := eraseKey a st.heap }
    else { st with heap := updateAt a (fun o => { o with ref_count_ := o.ref_count_ - 1 }) st.heap }

/-- `Session::createSession(m, chat_id, deck_name)`: fail (null) when the
chat id is already mapped; otherwise construct a Session — which throws,
yielding null with no state change, when the deck name fails to load —
then insert it into `g_sessions` and raise its reference count to 1. -/
def createSession (st : RegistryState) (chat_id : Int) (deck_name : String) :
    Option Nat × RegistryState :=
  match slookup chat_id st.map with
  | some _ => (none, st)
  | none =>
    match newSession chat_id deck_name with
    | none => (none, st)
    | some s =>
      let a := freshAddr st
      (some a, { heap := st.heap ++ [(a, ⟨s, 1⟩)], map := st.map ++ [(chat_id, a)] })

/-- `Session::deleteSession(chat_id)`: erase the `g_sessions` entry for
the chat id, if any; nothing else. -/
def deleteSession (st : RegistryState) (chat_id : Int) : RegistryState :=
  match slookup chat_id st.map with
  | none => st
  | some _ => { st with map := eraseKey chat_id st.map }

/-- The tail of `Session::worker` after the loop and the finish message:
`deleteSession(chat_id_); if (ref_count_-- == 1) delete this;` — the
registry entry is erased first, then the worker releases its own
reference. -/
def workerExit (st : RegistryState) (chat_id : Int) (a : Nat) : RegistryState :=
  putSession (deleteSession st chat_id) a

/-- The double-quote character, written by code point to keep character
literals simple. -/
def quoteChar : Char := Char.ofNat 34

/-- The apostrophe character, written by code point. -/
def aposChar : Char := Char.ofNat 39

/-- One step of the `switch` in `htmlspecialchars` (Session.cpp:173):
the five HTML metacharacters map to their entities, every other
character is appended unchanged. -/
def escChar (c : Char) : String :=
  if c = '&' then "&amp;"
  else if c = '<' then "&lt;"
  else if c = '>' then "&gt;"
  else if c = quoteChar then "&quot;"
  else if c = aposChar then "&apos;"
  else String.singleton c

/-- `htmlspecialchars(str)`: fold over the characters, appending each
character's escape to the accumulator (the `ret += ...` loop). -/
def htmlspecialchars (str : String) : String :=
  str.data.foldl (fun ret c => ret ++ escChar c) ""

/-- Inverse reading of the five entities, used to state that escaping is
lossless: every `&` the escaper emits begins a well-formed entity that
decodes back to the original character. -/
def decodeEntities : List Char → List Char
  | [] => []
  | '&' :: 'a' :: 'm' :: 'p' :: ';' :: rest => '&' :: decodeEntities rest
  | '&' :: 'l' :: 't' :: ';' :: rest => '<' :: decodeEntities rest
  | '&' :: 'g' :: 't' :: ';' :: rest => '>' :: decodeEntities rest
  | '&' :: 'q' :: 'u' :: 'o' :: 't' :: ';' :: rest => quoteChar :: decodeEntities rest
  | '&' :: 'a' :: 'p' :: 'o' :: 's' :: ';' :: rest => aposChar :: decodeEntities rest
  | c :: rest => c :: decodeEntities rest

/-- Sortedness produced by `std::sort` with comparator
`a.second.point_ > b.second.point_`: consecutive points never
increase. -/
def SortedByPointDesc : List (Int × Score) → Prop
  | [] => True
  | [_] => True
  | a :: b :: rest => b.2.point_ ≤ a.2.point_ ∧ SortedByPointDesc (b :: rest)

instance instDecSortedByPointDesc :
    (l : List (Int × Score)) → Decidable (SortedByPointDesc l)
  | [] => isTrue trivial
  | [_] => isTrue trivial
  | a :: b :: rest =>
    have : Decidable (SortedByPointDesc (b :: rest)) :=
      instDecSortedByPointDesc (b :: rest)
    inferInstanceAs (Decidable (b.2.point_ ≤ a.2.point_ ∧ SortedByPointDesc (b :: rest)))

/-- The contract of the ranking computation in `sendFinishMessage`
(Session.cpp:210-213): `scores_vec` is built from some enumeration
`enum` of the scoreboard map and `std::sort` rearranges it into any
permutation of `enum` that is sorted by point descending (the algorithm
is not stable and the map's iteration order is unspecified, so this
predicate is the exact guarantee the code provides). -/
def IsFinalRanking (enum ranked : List (Int × Score)) : Prop :=
  ranked.Perm enum ∧ SortedByPointDesc ranked

instance (e r : List (Int × Score)) : Decidable (IsFinalRanking e r) :=
  inferInstanceAs (Decidable (r.Perm e ∧ SortedByPointDesc r))

/-- The tie-break order the specification asserts: whenever two entries
of the ranking carry equal points, the one inserted into the scoreboard
earlier comes first. -/
def TiesRespectInsertion (board ranked : List (Int × Score)) : Prop :=
  ranked.Pairwise (fun a b =>
    a.2.point_ = b.2.point_ →
      (board.map Prod.fst).indexOf a.1 < (board.map Prod.fst).indexOf b.1)

instance (b r : List (Int × Score)) : Decidable (TiesRespectInsertion b r) :=
  inferInstanceAs (Decidable (r.Pairwise (fun a c : Int × Score =>
    a.2.point_ = c.2.point_ →
      (b.map Prod.fst).indexOf a.1 < (b.map Prod.fst).indexOf c.1)))

/-- One score line of the finish summary (Session.cpp:216-230): rank
number, `tg://user` link with the HTML-escaped full name, the point
count, and a plural `s` when the point count exceeds 1. -/
def scoreLine (idx : Nat) (e : Int × Score) : String :=
  toString idx ++ ". <a href=" ++ String.singleton quoteChar ++ "tg://user?id=" ++
    toString e.1 ++ String.singleton quoteChar ++ ">" ++
    htmlspecialchars e.2.full_name_ ++ "</a>: " ++ toString e.2.point_ ++ " point" ++
    (if 1 < e.2.point_ then "s" else "") ++ "\n"

/-- The full text of the finish summary built by `sendFinishMessage`
over an already-ranked score vector. -/
def finishSummary (ranked : List (Int × Score)) : String :=
  "Session finished!\n\n" ++
    String.join ((List.enumFrom 1 ranked).map (fun p => scoreLine p.1 p.2))

/-- The fields of an incoming Telegram message that `Session::answer`
reads. -/
structure TgMessage where
  fromId : Int
  firstName : String
  lastName : String
  username : String
  text : String
  messageId : Int

/-- Display name construction in `Session::answer` (Session.cpp:319-321):
first name, plus a space and the last name when the latter is
non-empty. -/
def fullNameOf (m : TgMessage) : String :=
  if 0 < m.lastName.length then m.firstName ++ " " ++ m.lastName else m.firstName

/-- `uint32_t` wrap-around for the point counter. -/
def u32 (n : Nat) : Nat := n % 2 ^ 32

/-- The scoreboard mutation inside `Session::answer`
(Session.cpp:317-327): an unseen participant is emplaced with point 1,
a seen one has `point_++` applied in place; the second component is the
participant's resulting point (the `s->point_` used in the reply). -/
def recordCorrect (scores : List (Int × Score)) (msg : TgMessage) :
    List (Int × Score) × Nat :=
  match slookup msg.fromId scores with
  | none =>
    (scores ++ [(msg.fromId, ⟨u32 1, fullNameOf msg, msg.username⟩)], u32 1)
  | some sc =>
    (updateAt msg.fromId (fun s => { s with point_ := u32 (s.point_ + 1) }) scores,
     u32 (sc.point_ + 1))

/-- `Session::answer(msg)` (Session.cpp:308-336): a reply with no card
in flight or an incorrect answer returns with no state change and no
outgoing message; a correct answer updates the scoreboard, sends the
`Correct!` reply, clears the current card and notifies the worker.  The
second component is the list of messages sent. -/
def answerMsg (s : SessionT) (msg : TgMessage) : SessionT × List String :=
  match s.current_card_ with
  | none => (s, [])
  | some card =>
    if ¬ card.checkAnswer msg.text then (s, [])
    else
      let r := recordCorrect s.scores_ msg
      ({ s with scores_ := r.1, current_card_ := none },
       ["Correct!\nYour point is: " ++ toString r.2 ++ "\n\n" ++ card.answerInfo])

/-- Why a `cond_.wait_for` call returned: the duration elapsed
(`cv_status::timeout`) or a `notify_one` arrived first. -/
inductive WakeReason where
  | timedOut
  | notified
deriving DecidableEq, Repr

/-- Semantics of `cond_.wait_for(lock, seconds(dur))` against at most
one pending notification arriving `e` seconds into the wait: the worker
wakes at `min e dur`, and the status is `timeout` exactly when the full
duration elapsed first. -/
def waitOutcome (dur : Nat) (notifyAt : Option Nat) : Nat × WakeReason :=
  match notifyAt with
  | none => (dur, .timedOut)
  | some e => if e < dur then (e, .notified) else (dur, .timedOut)

/-- What the worker does right after the await-answer wait
(Session.cpp:260-263): on `cv_status::timeout` it sends the time's-up
notice (with the card's answer info) and clears the current card; on
any other wake it does nothing and falls through. -/
def awaitAnswerWake (s : SessionT) (r : WakeReason) : SessionT × List String :=
  match r with
  | .timedOut =>
    ({ s with current_card_ := none },
     ["Time's up!\n\n" ++
        (match s.current_card_ with | some c => c.answerInfo | none => "")])
  | .notified => (s, [])

/-- The condition the worker re-evaluates after the await-answer wait
(Session.cpp:265): enter the inter-card delay wait only when the deck
is not finished and no stop was requested. -/
def delayPhaseCond (s : SessionT) : Bool :=
  !s.deck_.isFinished && !s.should_stop_

/-- `Session::setTimeout(timeout, skip)` (Session.cpp:338-345): store
the new timeout; the second component records whether `notify_one` was
issued (`skip`). -/
def setTimeout (s : SessionT) (timeout : Nat) (skip : Bool) : SessionT × Bool :=
  ({ s with timeout_ := timeout }, skip)

/-- `Session::setNextDelay(next_delay, skip)` (Session.cpp:347-354). -/
def setNextDelay (s : SessionT) (next_delay : Nat) (skip : Bool) : SessionT × Bool :=
  ({ s with next_delay_ := next_delay }, skip)

/-- nlohmann JSON values, restricted to the shapes this module reads and
writes (integers suffice for the numbers the code stores). -/
inductive Json where
  | null
  | jbool (b : Bool)
  | num (n : Int)
  | str (s : String)
  | arr (xs : List Json)
  | obj (fields : List (String × Json))

/-- `j.is_object()`. -/
def Json.isObj : Json → Bool
  | .obj _ => true
  | _ => false

/-- `j.find(key)` on an object (`end()` becomes `none`); `none` on
non-objects, which the code never reaches because it checks
`is_object()` first. -/
def Json.find (j : Json) (key : String) : Option Json :=
  match j with
  | .obj fields => slookup key fields
  | _ => none

/-- `j[key].is_number_integer() ? j[key].get<int64_t>()` folded into one
accessor: the integer at `key`, when present and integer-typed. -/
def Json.intField (j : Json) (key : String) : Option Int :=
  match j.find key with
  | some (.num n) => some n
  | _ => none

/-- The string at `key`, when present and string-typed. -/
def Json.strField (j : Json) (key : String) : Option String :=
  match j.find key with
  | some (.str s) => some s
  | _ => none

/-- The array at `key`, when present and array-typed. -/
def Json.arrField (j : Json) (key : String) : Option (List Json) :=
  match j.find key with
  | some (.arr xs) => some xs
  | _ => none

/-- One element of the serialized `scores` array
(Session.cpp:556-564). -/
def scoreJson (e : Int × Score) : Json :=
  .obj [("user_id", .num e.1),
        ("full_name", .str e.2.full_name_),
        ("username", .str e.2.username_),
        ("point", .num (Int.ofNat e.2.point_))]

/-- The snapshot object built by `serializeSessions`
(Session.cpp:553-564) from the session's chat id, deck name, and an
enumeration of its scoreboard. -/
def snapshotJson (chat_id : Int) (deck_name : String) (enum : List (Int × Score)) : Json :=
  .obj [("chat_id", .num chat_id),
        ("deck_name", .str deck_name),
        ("scores", .arr (enum.map scoreJson))]

/-- Minimal JSON string escaping, standing for the escaping inside the
external library's `dump`. -/
def escJsonStr (s : String) : String :=
  String.join (s.data.map (fun c =>
    if c = quoteChar then String.singleton (Char.ofNat 92) ++ String.singleton quoteChar
    else if c = Char.ofNat 92 then String.singleton (Char.ofNat 92) ++ String.singleton (Char.ofNat 92)
    else String.singleton c))

/-- Compact dump of one score object, standing for `nlohmann::json::dump`
on `scoreJson` (the library serializer is external to the repository;
only the byte length of the dump matters to the checkpoint logic). -/
def dumpScore (e : Int × Score) : String :=
  "\x7b" ++ String.singleton quoteChar ++ "user_id" ++ String.singleton quoteChar ++ ":" ++
    toString e.1 ++ "," ++ String.singleton quoteChar ++ "full_name" ++
    String.singleton quoteChar ++ ":" ++ String.singleton quoteChar ++
    escJsonStr e.2.full_name_ ++ String.singleton quoteChar ++ "," ++
    String.singleton quoteChar ++ "username" ++ String.singleton quoteChar ++ ":" ++
    String.singleton quoteChar ++ escJsonStr e.2.username_ ++ String.singleton quoteChar ++
    "," ++ String.singleton quoteChar ++ "point" ++ String.singleton quoteChar ++ ":" ++
    toString e.2.point_ ++ "\x7d"

/-- Compact dump of the whole snapshot object (`json_str = j.dump()` at
Session.cpp:566). -/
def dumpSnapshot (chat_id : Int) (deck_name : String) (enum : List (Int × Score)) : String :=
  "\x7b" ++ String.singleton quoteChar ++ "chat_id" ++ String.singleton quoteChar ++ ":" ++
    toString chat_id ++ "," ++ String.singleton quoteChar ++ "deck_name" ++
    String.singleton quoteChar ++ ":" ++ String.singleton quoteChar ++
    escJsonStr deck_name ++ String.singleton quoteChar ++ "," ++
    String.singleton quoteChar ++ "scores" ++ String.singleton quoteChar ++ ":[" ++
    String.intercalate "," (enum.map dumpScore) ++ "]\x7d"

/-- The on-disk snapshot directory, keyed by chat id (the path
`./storage/jqftu/sessions/s_<chatid>.json` encodes exactly the chat
id). -/
def FileStore : Type := List (Int × String)

/-- The observable I/O outcome of one checkpoint attempt: whether
`fopen` succeeded and how many bytes `fwrite` reported written. -/
structure WriteIO where
  openOk : Bool
  written : Nat

/-- `Session::serializeSessions(key)` (Session.cpp:540-576): look the
chat id up in `g_sessions` (a missing entry aborts silently), build and
dump the snapshot for some enumeration `enum` of the session's
scoreboard, open the file (truncating), write; when the written length
differs from the dump's length the file is removed, otherwise the dump
replaces the previous snapshot. -/
def serializeSessions (st : RegistryState) (files : FileStore) (key : Int)
    (enum : List (Int × Score)) (io : WriteIO) : FileStore :=
  match slookup key st.map with
  | none => files
  | some a =>
    match slookup a st.heap with
    | none => files
    | some o =>
      let content := dumpSnapshot o.sess.chat_id_ o.sess.deck_.name enum
      if ¬ io.openOk then files
      else if io.written = content.length then setKey key content files
      else eraseKey key files

/-- `get<uint32_t>` on a stored integer: truncation to 32 bits. -/
def intToU32 (n : Int) : Nat := (n % 2 ^ 32).toNat

/-- The per-element checks of the restore loop (Session.cpp:470-491):
an element contributes a score only when it is an object with
integer `user_id`, string `full_name`, string `username` and integer
`point`. -/
def parseScoreObj (j : Json) : Option (Int × Score) :=
  if ¬ j.isObj then none
  else match j.intField "user_id" with
    | none => none
    | some uid =>
      match j.strField "full_name" with
      | none => none
      | some fn =>
        match j.strField "username" with
        | none => none
        | some un =>
          match j.intField "point" with
          | none => none
          | some pt => some (uid, ⟨intToU32 pt, fn, un⟩)

/-- `scores_.emplace(...)`: append only when the key is absent. -/
def emplaceScore (scores : List (Int × Score)) (e : Int × Score) : List (Int × Score) :=
  match slookup e.1 scores with
  | some _ => scores
  | none => scores ++ [e]

/-- The whole restore loop over the `scores` array. -/
def restoreScores (xs : List Json) : List (Int × Score) :=
  xs.foldl (fun sc j =>
    match parseScoreObj j with
    | none => sc
    | some e => emplaceScore sc e) []

/-- The top-level shape checks of `initSessionFromJson`
(Session.cpp:452-462): object with integer `chat_id`, string
`deck_name` and array `scores`. -/
def wellFormedSnapshot (j : Json) : Bool :=
  j.isObj && (j.intField "chat_id").isSome && (j.strField "deck_name").isSome &&
    (j.arrField "scores").isSome

/-- `Session::initSessionFromJson(m, j)` (Session.cpp:445-495): bail out
on any failed shape check; create a session for the snapshot's chat id
and deck name (a duplicate chat id or bad deck name aborts with the
registry unchanged); populate its scoreboard from the `scores` array;
start its worker. -/
def initSessionFromJson (st : RegistryState) (j : Json) : RegistryState :=
  if ¬ j.isObj then st
  else match j.intField "chat_id" with
    | none => st
    | some chat_id =>
      match j.strField "deck_name" with
      | none => st
      | some deck_name =>
        match j.arrField "scores" with
        | none => st
        | some xs =>
          match createSession st chat_id deck_name with
          | (none, st') => st'
          | (some a, st') =>
            { st' with
              heap := updateAt a
                (fun o => { o with sess := { o.sess with scores_ := restoreScores xs } })
                st'.heap }

/-- One directory entry seen by the recovery scan of `Session::init`
(Session.cpp:508-534): the file name and, when both reading the file
and `json::parse` succeeded, the parsed value (`none` models an
unreadable file or a parse error). -/
structure ScanEntry where
  name : String
  parsed : Option Json

/-- The `n[0] == 's' && n[1] == '_'` file-name filter. -/
def hasSnapshotName (s : String) : Bool :=
  match s.data with
  | 's' :: '_' :: _ => true
  | _ => false

/-- One iteration of the recovery scan: entries whose name does not
match, that cannot be read, or that fail to parse are skipped; the rest
go through `initSessionFromJson`. -/
def scanStep (st : RegistryState) (e : ScanEntry) : RegistryState :=
  if hasSnapshotName e.name then
    match e.parsed with
    | none => st
    | some j => initSessionFromJson st j
  else st

/-- The directory loop of `Session::init`. -/
def startupScan (st : RegistryState) (entries : List ScanEntry) : RegistryState :=
  entries.foldl scanStep st

/-- A malformed persisted entry in the sense of the recovery scan: the
name marks it as a snapshot, but it is unparsable or flunks the shape
checks of `initSessionFromJson`. -/
def MalformedEntry (e : ScanEntry) : Prop :=
  hasSnapshotName e.name = true ∧
    (e.parsed = none ∨ ∃ j, e.parsed = some j ∧ wellFormedSnapshot j = false)

/-- The messages `sendFinishMessage` emits (Session.cpp:202-236): a
"Game is stopped!" notice first when a card is still in flight, then
the ranked summary. -/
def finishMessages (s : SessionT) (ranked : List (Int × Score)) : List String :=
  (match s.current_card_ with
   | some c => ["Game is stopped!\n\n" ++ c.answerInfo]
   | none => []) ++ [finishSummary ranked]

/-- The worker's loop-exit path (Session.cpp:271-275): send the finish
summary, erase the registry entry, release the worker's own reference.
No file operation occurs on this path, so the file store passes through
unchanged. -/
def finishTeardown (st : RegistryState) (files : FileStore) (s : SessionT) (a : Nat)
    (ranked : List (Int × Score)) : List String × RegistryState × FileStore :=
  (finishMessages s ranked, workerExit st s.chat_id_ a, files)

/-- Boolean test used to state that escaping leaves no raw HTML
metacharacter: the character is none of `<`, `>`, `"`, `'` (a remaining
`&` is accounted for by the decode round trip). -/
def noRawMeta (c : Char) : Bool :=
  !(c == '<') && !(c == '>') && !(c == quoteChar) && !(c == aposChar)

/- ------------------------------------------------------------------ -/
/- Theorems.                                                          -/
/- ------------------------------------------------------------------ -/

theorem hs_foldl_data (l : List Char) (acc : String) :
    (l.foldl (fun ret c => ret ++ escChar c) acc).data =
      acc.data ++ l.flatMap (fun c => (escChar c).data) := by
  induction l generalizing acc with
  | nil => simp
  | cons c cs ih =>
    simp only [List.foldl_cons, List.flatMap_cons, ih, String.data_append,
      List.append_assoc]

set_option maxHeartbeats 1600000 in
theorem decode_escChar (c : Char) (l : List Char) :
    decodeEntities ((escChar c).data ++ l) = c :: decodeEntities l := by
  by_cases h1 : c = '&'
  · subst h1; rfl
  by_cases h2 : c = '<'
  · subst h2; rfl
  by_cases h3 : c = '>'
  · subst h3; rfl
  by_cases h4 : c = quoteChar
  · subst h4; rfl
  by_cases h5 : c = aposChar
  · subst h5; rfl
  · have hd : (escChar c).data = [c] := by
      simp [escChar, h1, h2, h3, h4, h5, String.singleton]
    rw [hd, List.singleton_append, decodeEntities.eq_def]
    split
    all_goals first
      | rfl
      | simp_all

theorem escChar_noRawMeta (c : Char) : ((escChar c).data.all noRawMeta) = true := by
  by_cases h1 : c = '&'
  · subst h1; rfl
  by_cases h2 : c = '<'
  · subst h2; rfl
  by_cases h3 : c = '>'
  · subst h3; rfl
  by_cases h4 : c = quoteChar
  · subst h4; rfl
  by_cases h5 : c = aposChar
  · subst h5; rfl
  · have hd : (escChar c).data = [c] := by
      simp [escChar, h1, h2, h3, h4, h5, String.singleton]
    rw [hd]
    simp [noRawMeta, h2, h3, h4, h5]

/-- C10: `htmlspecialchars` replaces each occurrence of the five HTML
metacharacters by its entity and leaves every other character
unchanged (the output is the concatenation of the per-character
escapes); the output contains no raw `<`, `>`, `"`, `'`; and decoding
the five entities recovers the input exactly, so every `&` in the
output is the start of an escape sequence — a display name run through
it contributes no unescaped HTML metacharacter to the summary. -/
theorem C10_htmlspecialchars_escapes (s : String) :
    (htmlspecialchars s).data = s.data.flatMap (fun c => (escChar c).data) ∧
    ((htmlspecialchars s).data.all noRawMeta) = true ∧
    decodeEntities (htmlspecialchars s).data = s.data := by
  have hdata : (htmlspecialchars s).data = s.data.flatMap (fun c => (escChar c).data) := by
    have := hs_foldl_data s.data ""
    simpa [htmlspecialchars] using this
  refine ⟨hdata, ?_, ?_⟩
  · rw [hdata]
    induction s.data with
    | nil => rfl
    | cons c cs ih =>
      simp only [List.flatMap_cons, List.all_append, ih, Bool.and_true,
        escChar_noRawMeta c]
  · rw [hdata]
    induction s.data with
    | nil => rfl
    | cons c cs ih =>
      simp only [List.flatMap_cons, List.append_assoc]
      rw [decode_escChar, ih]

theorem slookup_append_self {κ α : Type} [DecidableEq κ] (k : κ) (v : α)
    (l : List (κ × α)) (h : slookup k l = none) :
    slookup k (l ++ [(k, v)]) = some v := by
  induction l with
  | nil => simp [slookup]
  | cons e rest ih =>
    obtain ⟨k', v'⟩ := e
    by_cases hk : k = k'
    · simp [slookup, hk] at h
    · simp only [slookup, hk, if_false, List.cons_append] at h ⊢
      exact ih h

theorem slookup_updateAt_self {κ α : Type} [DecidableEq κ] (k : κ) (f : α → α)
    (l : List (κ × α)) :
    slookup k (updateAt k f l) = (slookup k l).map f := by
  induction l with
  | nil => simp [slookup, updateAt]
  | cons e rest ih =>
    obtain ⟨k', v'⟩ := e
    by_cases hk : k = k'
    · simp [slookup, updateAt, hk]
    · simp [slookup, updateAt, hk, ih]

theorem answerMsg_no_card (t : SessionT) (m : TgMessage)
    (h : t.current_card_ = none) : answerMsg t m = (t, []) := by
  simp [answerMsg, h]

/-- C7: `Session::answer` ignores a reply when no card is in flight or
the text is not a correct answer (scoreboard and session unchanged, no
reply sent); the first accepted correct answer inserts an unseen
participant with point 1, bumps a seen participant's point by one
(`uint32` increment), and clears the current card at once, so every
later reply while no new card is drawn is ignored. -/
theorem C7_answer_scoring (s : SessionT) (msg : TgMessage) :
    (s.current_card_ = none → answerMsg s msg = (s, [])) ∧
    (∀ card, s.current_card_ = some card → card.checkAnswer msg.text = false →
      answerMsg s msg = (s, [])) ∧
    (∀ card, s.current_card_ = some card → card.checkAnswer msg.text = true →
      slookup msg.fromId s.scores_ = none →
      (answerMsg s msg).1.scores_ =
        s.scores_ ++ [(msg.fromId, ⟨1, fullNameOf msg, msg.username⟩)] ∧
      slookup msg.fromId (answerMsg s msg).1.scores_ =
        some ⟨1, fullNameOf msg, msg.username⟩) ∧
    (∀ card sc, s.current_card_ = some card → card.checkAnswer msg.text = true →
      slookup msg.fromId s.scores_ = some sc →
      slookup msg.fromId (answerMsg s msg).1.scores_ =
        some { sc with point_ := u32 (sc.point_ + 1) }) ∧
    (∀ card, s.current_card_ = some card → card.checkAnswer msg.text = true →
      (answerMsg s msg).1.current_card_ = none ∧
      ∀ msg2, answerMsg (answerMsg s msg).1 msg2 = ((answerMsg s msg).1, [])) := by
  refine ⟨?_, ?_, ?_, ?_, ?_⟩
  · intro h; exact answerMsg_no_card s msg h
  · intro card hc hw; simp [answerMsg, hc, hw]
  · intro card hc hw hnone
    have h1 : (answerMsg s msg).1.scores_ =
        s.scores_ ++ [(msg.fromId, ⟨1, fullNameOf msg, msg.username⟩)] := by
      simp [answerMsg, hc, hw, recordCorrect, hnone, u32]
    refine ⟨h1, ?_⟩
    rw [h1]
    exact slookup_append_self _ _ _ hnone
  · intro card sc hc hw hsome
    have h1 : (answerMsg s msg).1.scores_ =
        updateAt msg.fromId (fun t => { t with point_ := u32 (t.point_ + 1) }) s.scores_ := by
      simp [answerMsg, hc, hw, recordCorrect, hsome]
    rw [h1, slookup_updateAt_self, hsome]
    rfl
  · intro card hc hw
    have h1 : (answerMsg s msg).1.current_card_ = none := by
      simp [answerMsg, hc, hw]
    exact ⟨h1, fun msg2 => answerMsg_no_card _ msg2 h1⟩

/-- Witness for C7 at a concrete session: a wrong answer changes
nothing; a correct answer from an unseen participant scores 1 and a
second reply is ignored. -/
theorem C7_answer_scoring_witness :
    (answerMsg
        { chat_id_ := 9, deck_ := ⟨"tozai_line", []⟩,
          scores_ := [], current_card_ := some ⟨"q1", fun a => a == "a1", "info1"⟩,
          should_stop_ := false, timeout_ := 30, next_delay_ := 5, last_msg_id_ := 0 }
        { fromId := 7, firstName := "Ann", lastName := "", username := "ann",
          text := "a1", messageId := 3 }).1.scores_ =
      [(7, ⟨1, "Ann", "ann"⟩)] := by
  have h := (C7_answer_scoring
    { chat_id_ := 9, deck_ := ⟨"tozai_line", []⟩,
      scores_ := [], current_card_ := some ⟨"q1", fun a => a == "a1", "info1"⟩,
      should_stop_ := false, timeout_ := 30, next_delay_ := 5, last_msg_id_ := 0 }
    { fromId := 7, firstName := "Ann", lastName := "", username := "ann",
      text := "a1", messageId := 3 }).2.2.1 ⟨"q1", fun a => a == "a1", "info1"⟩ rfl rfl rfl
  simpa [fullNameOf] using h.1

theorem slookup_none_of_not_mem {κ α : Type} [DecidableEq κ] (k : κ)
    (l : List (κ × α)) (h : k ∉ l.map Prod.fst) : slookup k l = none := by
  induction l with
  | nil => rfl
  | cons e rest ih =>
    obtain ⟨k', v'⟩ := e
    simp only [List.map_cons, List.mem_cons, not_or] at h
    simp only [slookup, if_neg h.1]
    exact ih h.2

theorem slookup_eraseKey_self {κ α : Type} [DecidableEq κ] (k : κ)
    (l : List (κ × α)) (nd : (l.map Prod.fst).Nodup) :
    slookup k (eraseKey k l) = none := by
  induction l with
  | nil => rfl
  | cons e rest ih =>
    obtain ⟨k', v'⟩ := e
    simp only [List.map_cons, List.nodup_cons] at nd
    by_cases hk : k = k'
    · subst hk
      simp only [eraseKey, if_pos rfl]
      exact slookup_none_of_not_mem k rest nd.1
    · simp only [eraseKey, if_neg hk, slookup]
      exact ih nd.2

/-- C6: when the bytes `fwrite` reports written differ from the length
of the dumped snapshot, `serializeSessions` removes the snapshot file
for that chat id, so no truncated artifact remains on disk. -/
theorem C6_short_write_removes (st : RegistryState) (files : FileStore) (key : Int)
    (enum : List (Int × Score)) (io : WriteIO) (a : Nat) (o : SessionObj)
    (hm : slookup key st.map = some a) (hh : slookup a st.heap = some o)
    (hopen : io.openOk = true)
    (hshort : io.written ≠ (dumpSnapshot o.sess.chat_id_ o.sess.deck_.name enum).length)
    (nd : (files.map Prod.fst).Nodup) :
    serializeSessions st files key enum io = eraseKey key files ∧
    slookup key (serializeSessions st files key enum io) = none := by
  have h1 : serializeSessions st files key enum io = eraseKey key files := by
    simp [serializeSessions, hm, hh, hopen, hshort]
  exact ⟨h1, by rw [h1]; exact slookup_eraseKey_self key files nd⟩

/-- Witness for C6: a concrete one-session registry, a zero-byte write
against a non-empty dump, and the stale file for chat 5 disappearing. -/
theorem C6_short_write_removes_witness :
    slookup (5 : Int)
      (serializeSessions
        ⟨[(1, ⟨{ chat_id_ := 5, deck_ := ⟨"tozai_line", []⟩, scores_ := [],
                 current_card_ := none, should_stop_ := false, timeout_ := 30,
                 next_delay_ := 5, last_msg_id_ := 0 }, 2⟩)], [((5 : Int), 1)]⟩
        [((5 : Int), "old-snapshot")] 5 [] ⟨true, 0⟩) = none :=
  (C6_short_write_removes
    ⟨[(1, ⟨{ chat_id_ := 5, deck_ := ⟨"tozai_line", []⟩, scores_ := [],
             current_card_ := none, should_stop_ := false, timeout_ := 30,
             next_delay_ := 5, last_msg_id_ := 0 }, 2⟩)], [((5 : Int), 1)]⟩
    [((5 : Int), "old-snapshot")] 5 [] ⟨true, 0⟩ 1
    ⟨{ chat_id_ := 5, deck_ := ⟨"tozai_line", []⟩, scores_ := [],
       current_card_ := none, should_stop_ := false, timeout_ := 30,
       next_delay_ := 5, last_msg_id_ := 0 }, 2⟩
    rfl rfl rfl (by decide) (by decide)).2

theorem putSession_map (st : RegistryState) (a : Nat) :
    (putSession st a).map = st.map := by
  unfold putSession
  cases slookup a st.heap with
  | none => rfl
  | some o =>
    by_cases h : o.ref_count_ = 1 <;> simp [h]

/-- C9: `deleteSession` erases only the `g_sessions` entry — the heap
(every live session and its reference count) is untouched; the worker's
exit sequence performs that erase before releasing its own reference;
and once the entry is erased, `getSession` on that chat id returns null
both right after the erase and after the whole exit sequence, so no new
borrower can resurrect the session mid-teardown. -/
theorem C9_remove_erases_map_only (st : RegistryState) (c : Int) (a : Nat)
    (nd : (st.map.map Prod.fst).Nodup) (ha : slookup c st.map = some a) :
    (deleteSession st c).heap = st.heap ∧
    (deleteSession st c).map = eraseKey c st.map ∧
    (getSession (deleteSession st c) c).1 = none ∧
    workerExit st c a = putSession (deleteSession st c) a ∧
    (getSession (workerExit st c a) c).1 = none := by
  have hdel : deleteSession st c = { st with map := eraseKey c st.map } := by
    simp [deleteSession, ha]
  have hnone : slookup c (eraseKey c st.map) = none :=
    slookup_eraseKey_self c st.map nd
  refine ⟨by rw [hdel], by rw [hdel], ?_, rfl, ?_⟩
  · rw [hdel]
    simp [getSession, hnone]
  · have hmap : (workerExit st c a).map = eraseKey c st.map := by
      rw [workerExit, putSession_map, hdel]
    simp [getSession, hmap, hnone]

/-- Witness for C9: a one-session registry for chat 5; after the
worker's exit sequence a lookup for chat 5 misses. -/
theorem C9_remove_erases_map_only_witness :
    (getSession
      (workerExit
        ⟨[(1, ⟨{ chat_id_ := 5, deck_ := ⟨"tozai_line", []⟩, scores_ := [],
                 current_card_ := none, should_stop_ := false, timeout_ := 30,
                 next_delay_ := 5, last_msg_id_ := 0 }, 2⟩)], [((5 : Int), 1)]⟩
        5 1) 5).1 = none :=
  (C9_remove_erases_map_only
    ⟨[(1, ⟨{ chat_id_ := 5, deck_ := ⟨"tozai_line", []⟩, scores_ := [],
             current_card_ := none, should_stop_ := false, timeout_ := 30,
             next_delay_ := 5, last_msg_id_ := 0 }, 2⟩)], [((5 : Int), 1)]⟩
    5 1 (by decide) rfl).2.2.2.2

theorem le_foldr_max (l : List Nat) (k : Nat) (h : k ∈ l) : k ≤ l.foldr max 0 := by
  induction l with
  | nil => cases h
  | cons x xs ih =>
    rcases List.mem_cons.mp h with h1 | h2
    · subst h1; exact le_max_left _ _
    · exact le_trans (ih h2) (le_max_right _ _)

theorem freshAddr_not_mem (st : RegistryState) :
    freshAddr st ∉ st.heap.map Prod.fst := by
  intro h
  have := le_foldr_max (st.heap.map Prod.fst) (freshAddr st) h
  simp only [freshAddr] at this
  omega

/-- C2 (amended): `createSession` fails with no state change when the
chat id is already mapped, and also when session construction (the deck
load in the constructor) fails; when the deck name is valid it fails
exactly when the chat id is already mapped, and on success it allocates
a fresh session, registers it under the chat id, gives it reference
count 1, and returns it. -/
theorem C2_createSession_contract (st : RegistryState) (c : Int) (dn : String) :
    (slookup c st.map ≠ none → createSession st c dn = (none, st)) ∧
    (newSession c dn = none → createSession st c dn = (none, st)) ∧
    (∀ s, newSession c dn = some s →
      (((createSession st c dn).1 = none) ↔ slookup c st.map ≠ none) ∧
      (slookup c st.map = none →
        createSession st c dn =
          (some (freshAddr st),
            ⟨st.heap ++ [(freshAddr st, ⟨s, 1⟩)], st.map ++ [(c, freshAddr st)]⟩) ∧
        slookup (freshAddr st) (createSession st c dn).2.heap = some ⟨s, 1⟩ ∧
        slookup c (createSession st c dn).2.map = some (freshAddr st))) := by
  refine ⟨?_, ?_, ?_⟩
  · intro h
    cases hm : slookup c st.map with
    | none => exact absurd hm h
    | some a => simp [createSession, hm]
  · intro h
    cases hm : slookup c st.map with
    | none => simp [createSession, hm, h]
    | some a => simp [createSession, hm]
  · intro s hs
    constructor
    · constructor
      · intro h1 h2
        rw [Option.eq_none_iff_forall_not_mem] at h2
        cases hm : slookup c st.map with
        | none => simp [createSession, hm, hs] at h1
        | some a => exact h2 a hm
      · intro h
        cases hm : slookup c st.map with
        | none => exact absurd hm h
        | some a => simp [createSession, hm]
    · intro hm
      have hc : createSession st c dn =
          (some (freshAddr st),
            ⟨st.heap ++ [(freshAddr st, ⟨s, 1⟩)], st.map ++ [(c, freshAddr st)]⟩) := by
        simp [createSession, hm, hs]
      refine ⟨hc, ?_, ?_⟩
      · rw [hc]
        exact slookup_append_self _ _ _
          (slookup_none_of_not_mem _ _ (freshAddr_not_mem st))
      · rw [hc]
        exact slookup_append_self _ _ _ hm

/-- Counterexample for C2 as stated: with an empty registry (no live
session mapped for chat 1) `createSession` still fails, because the
deck name does not load — so "fails if and only if a live session is
already mapped" is false. -/
theorem C2_createSession_counterexample :
    (createSession ⟨[], []⟩ 1 "bogus").1 = none ∧
    slookup (1 : Int) (RegistryState.mk [] []).map = none := by
  exact ⟨rfl, rfl⟩

/-- Witness for C2: creating a session for chat 1 with the valid deck
name in an empty registry succeeds and registers it with reference
count 1. -/
theorem C2_createSession_contract_witness :
    slookup (freshAddr ⟨[], []⟩) (createSession ⟨[], []⟩ 1 "tozai_line").2.heap =
      some ⟨{ chat_id_ := 1, deck_ := ⟨"tozai_line", tozaiCards⟩, scores_ := [],
              current_card_ := none, should_stop_ := false, timeout_ := defaultTimeout,
              next_delay_ := defaultNextDelay, last_msg_id_ := 0 }, 1⟩ :=
  (((C2_createSession_contract ⟨[], []⟩ 1 "tozai_line").2.2
      { chat_id_ := 1, deck_ := ⟨"tozai_line", tozaiCards⟩, scores_ := [],
        current_card_ := none, should_stop_ := false, timeout_ := defaultTimeout,
        next_delay_ := defaultNextDelay, last_msg_id_ := 0 } rfl).2 rfl).2.1

/-- C5 (amended): on loop exit the worker sends the finish summary as
its last message and deregisters the session from the registry, but the
on-disk snapshot file for the chat id is left untouched — the finish
path contains no file operation; a snapshot file is only ever removed
by the short-write branch of `serializeSessions`. -/
theorem C5_finish_keeps_snapshot_file (st : RegistryState) (files : FileStore)
    (s : SessionT) (a : Nat) (ranked : List (Int × Score))
    (nd : (st.map.map Prod.fst).Nodup) (ha : slookup s.chat_id_ st.map = some a) :
    (finishTeardown st files s a ranked).2.2 = files ∧
    (finishTeardown st files s a ranked).1.getLast? = some (finishSummary ranked) ∧
    (getSession (finishTeardown st files s a ranked).2.1 s.chat_id_).1 = none := by
  refine ⟨rfl, ?_, ?_⟩
  · simp [finishTeardown, finishMessages]
  · exact (C9_remove_erases_map_only st s.chat_id_ a nd ha).2.2.2.2

/-- Counterexample for C5 as stated: a concrete finished session for
chat 5 whose snapshot file is on disk; after the finish summary and the
teardown, the registry entry is gone but the snapshot file for chat 5
is still present — the claim's "its on-disk snapshot file ... is
removed" is false. -/
theorem C5_finish_counterexample :
    (finishTeardown
        ⟨[(1, ⟨{ chat_id_ := 5, deck_ := ⟨"tozai_line", []⟩, scores_ := [],
                 current_card_ := none, should_stop_ := false, timeout_ := 30,
                 next_delay_ := 5, last_msg_id_ := 0 }, 1⟩)], [((5 : Int), 1)]⟩
        [((5 : Int), "snap")]
        { chat_id_ := 5, deck_ := ⟨"tozai_line", []⟩, scores_ := [],
          current_card_ := none, should_stop_ := false, timeout_ := 30,
          next_delay_ := 5, last_msg_id_ := 0 }
        1 []).2.2 = [((5 : Int), "snap")] ∧
    slookup (5 : Int)
      (finishTeardown
        ⟨[(1, ⟨{ chat_id_ := 5, deck_ := ⟨"tozai_line", []⟩, scores_ := [],
                 current_card_ := none, should_stop_ := false, timeout_ := 30,
                 next_delay_ := 5, last_msg_id_ := 0 }, 1⟩)], [((5 : Int), 1)]⟩
        [((5 : Int), "snap")]
        { chat_id_ := 5, deck_ := ⟨"tozai_line", []⟩, scores_ := [],
          current_card_ := none, should_stop_ := false, timeout_ := 30,
          next_delay_ := 5, last_msg_id_ := 0 }
        1 []).2.2 = some "snap" ∧
    slookup (5 : Int)
      (finishTeardown
        ⟨[(1, ⟨{ chat_id_ := 5, deck_ := ⟨"tozai_line", []⟩, scores_ := [],
                 current_card_ := none, should_stop_ := false, timeout_ := 30,
                 next_delay_ := 5, last_msg_id_ := 0 }, 1⟩)], [((5 : Int), 1)]⟩
        [((5 : Int), "snap")]
        { chat_id_ := 5, deck_ := ⟨"tozai_line", []⟩, scores_ := [],
          current_card_ := none, should_stop_ := false, timeout_ := 30,
          next_delay_ := 5, last_msg_id_ := 0 }
        1 []).2.1.map = none := by
  exact ⟨rfl, rfl, rfl⟩

/-- Witness for C5 (amended) at the same concrete state. -/
theorem C5_finish_keeps_snapshot_file_witness :
    (finishTeardown
        ⟨[(1, ⟨{ chat_id_ := 5, deck_ := ⟨"tozai_line", []⟩, scores_ := [],
                 current_card_ := none, should_stop_ := false, timeout_ := 30,
                 next_delay_ := 5, last_msg_id_ := 0 }, 1⟩)], [((5 : Int), 1)]⟩
        [((5 : Int), "snap")]
        { chat_id_ := 5, deck_ := ⟨"tozai_line", []⟩, scores_ := [],
          current_card_ := none, should_stop_ := false, timeout_ := 30,
          next_delay_ := 5, last_msg_id_ := 0 }
        1 []).2.2 = [((5 : Int), "snap")] :=
  (C5_finish_keeps_snapshot_file
    ⟨[(1, ⟨{ chat_id_ := 5, deck_ := ⟨"tozai_line", []⟩, scores_ := [],
             current_card_ := none, should_stop_ := false, timeout_ := 30,
             next_delay_ := 5, last_msg_id_ := 0 }, 1⟩)], [((5 : Int), 1)]⟩
    [((5 : Int), "snap")]
    { chat_id_ := 5, deck_ := ⟨"tozai_line", []⟩, scores_ := [],
      current_card_ := none, should_stop_ := false, timeout_ := 30,
      next_delay_ := 5, last_msg_id_ := 0 }
    1 [] (by decide) rfl).1

/-- C3: a `setTimeout(..., applyImmediately = true)` that lands `e`
seconds into an await-answer wait of the original `timeout_` (with
`e < timeout_`) issues a notify; the wait then returns at `e`, before
the original timeout elapses, with a non-timeout status.  The worker's
post-wait step on that status sends nothing (no time's-up notice), does
not clear the in-flight card, does not touch the scoreboard (no point
awarded, the card is not treated as answered), and the worker proceeds
to re-evaluate its loop condition with the session state intact. -/
theorem C3_setTimeout_immediate_wake (s : SessionT) (card : Card) (t e : Nat)
    (hc : s.current_card_ = some card) (he : e < s.timeout_) :
    (setTimeout s t true).2 = true ∧
    waitOutcome s.timeout_ (some e) = (e, WakeReason.notified) ∧
    e < s.timeout_ ∧
    awaitAnswerWake (setTimeout s t true).1 WakeReason.notified =
      ((setTimeout s t true).1, []) ∧
    (setTimeout s t true).1.current_card_ = some card ∧
    (setTimeout s t true).1.scores_ = s.scores_ ∧
    delayPhaseCond (setTimeout s t true).1 =
      (!s.deck_.isFinished && !s.should_stop_) := by
  refine ⟨rfl, ?_, he, rfl, ?_, rfl, rfl⟩
  · simp [waitOutcome, he]
  · simpa [setTimeout] using hc

/-- Witness for C3: a session in a 30-second await-answer wait, a
timeout change arriving after 3 seconds; the wait ends at 3 with a
non-timeout wake and the card stays in flight. -/
theorem C3_setTimeout_immediate_wake_witness :
    waitOutcome 30 (some 3) = (3, WakeReason.notified) ∧
    (setTimeout
      { chat_id_ := 5, deck_ := ⟨"tozai_line", tozaiCards⟩, scores_ := [],
        current_card_ := some ⟨"q1", fun a => a == "a1", "info1"⟩,
        should_stop_ := false, timeout_ := 30, next_delay_ := 5, last_msg_id_ := 0 }
      10 true).1.current_card_ = some ⟨"q1", fun a => a == "a1", "info1"⟩ := by
  have h := C3_setTimeout_immediate_wake
    { chat_id_ := 5, deck_ := ⟨"tozai_line", tozaiCards⟩, scores_ := [],
      current_card_ := some ⟨"q1", fun a => a == "a1", "info1"⟩,
      should_stop_ := false, timeout_ := 30, next_delay_ := 5, last_msg_id_ := 0 }
    ⟨"q1", fun a => a == "a1", "info1"⟩ 10 3 rfl (by decide)
  exact ⟨h.2.1, h.2.2.2.2.1⟩

theorem initSessionFromJson_malformed (st : RegistryState) (j : Json)
    (h : wellFormedSnapshot j = false) : initSessionFromJson st j = st := by
  unfold initSessionFromJson
  by_cases h1 : j.isObj = true
  · cases h2 : j.intField "chat_id" with
    | none => simp [h1, h2]
    | some cid =>
      cases h3 : j.strField "deck_name" with
      | none => simp [h1, h2, h3]
      | some dn =>
        cases h4 : j.arrField "scores" with
        | none => simp [h1, h2, h3, h4]
        | some xs =>
          exfalso
          simp [wellFormedSnapshot, h1, h2, h3, h4] at h
  · simp [h1]

theorem scanStep_malformed (st : RegistryState) (e : ScanEntry)
    (h : MalformedEntry e) : scanStep st e = st := by
  obtain ⟨hname, hbad⟩ := h
  rcases hbad with hp | ⟨j, hp, hwf⟩
  · simp [scanStep, hname, hp]
  · simp only [scanStep, hname, if_pos, hp]
    exact initSessionFromJson_malformed st j hwf

/-- C8: the startup recovery scan folds over the directory entries one
at a time, and a malformed snapshot entry — unreadable, unparsable, or
missing/wrong-typed `chat_id`, `deck_name` or `scores` — is a no-op:
the scan of any entry list containing it ends in exactly the registry
state produced by scanning the same list without it, so every other
(well-formed) entry is still restored. -/
theorem C8_scan_skips_malformed (st : RegistryState) (pre post : List ScanEntry)
    (m : ScanEntry) (h : MalformedEntry m) :
    startupScan st (pre ++ m :: post) = startupScan st (pre ++ post) := by
  unfold startupScan
  rw [List.foldl_append, List.foldl_append, List.foldl_cons,
    scanStep_malformed _ m h]

/-- Witness for C8: a scan of a good snapshot for chat 1, an unparsable
`s_`-named entry, and a snapshot with a wrong-typed `chat_id`, compared
with the scan without the unparsable entry. -/
theorem C8_scan_skips_malformed_witness :
    startupScan ⟨[], []⟩
      ([⟨"s_1.json", some (Json.obj [("chat_id", Json.num 1),
          ("deck_name", Json.str "tozai_line"), ("scores", Json.arr [])])⟩] ++
        ⟨"s_2.json", none⟩ ::
        [⟨"s_3.json", some (Json.obj [("chat_id", Json.str "three"),
          ("deck_name", Json.str "tozai_line"), ("scores", Json.arr [])])⟩]) =
    startupScan ⟨[], []⟩
      ([⟨"s_1.json", some (Json.obj [("chat_id", Json.num 1),
          ("deck_name", Json.str "tozai_line"), ("scores", Json.arr [])])⟩] ++
        [⟨"s_3.json", some (Json.obj [("chat_id", Json.str "three"),
          ("deck_name", Json.str "tozai_line"), ("scores", Json.arr [])])⟩]) :=
  C8_scan_skips_malformed ⟨[], []⟩
    [⟨"s_1.json", some (Json.obj [("chat_id", Json.num 1),
        ("deck_name", Json.str "tozai_line"), ("scores", Json.arr [])])⟩]
    [⟨"s_3.json", some (Json.obj [("chat_id", Json.str "three"),
        ("deck_name", Json.str "tozai_line"), ("scores", Json.arr [])])⟩]
    ⟨"s_2.json", none⟩ ⟨rfl, Or.inl rfl⟩

theorem slookup_append_of_none {κ α : Type} [DecidableEq κ] (k : κ)
    (l₁ l₂ : List (κ × α)) (h : slookup k l₁ = none) :
    slookup k (l₁ ++ l₂) = slookup k l₂ := by
  induction l₁ with
  | nil => rfl
  | cons e rest ih =>
    obtain ⟨k', v'⟩ := e
    by_cases hk : k = k'
    · simp [slookup, hk] at h
    · simp only [slookup, if_neg hk, List.cons_append] at h ⊢
      exact ih h

theorem lookup_eq_of_perm {α : Type} [DecidableEq α] {β : Type}
    {l₁ l₂ : List (α × β)} (h : l₁.Perm l₂)
    (nd : (l₁.map Prod.fst).Nodup) (k : α) :
    slookup k l₁ = slookup k l₂ := by
  induction h with
  | nil => rfl
  | cons x h ih =>
    obtain ⟨k', v'⟩ := x
    simp only [List.map_cons, List.nodup_cons] at nd
    by_cases hk : k = k'
    · simp [slookup, hk]
    · simp only [slookup, if_neg hk]
      exact ih nd.2
  | swap x y l =>
    obtain ⟨kx, vx⟩ := x
    obtain ⟨ky, vy⟩ := y
    simp only [List.map_cons, List.nodup_cons, List.mem_cons, not_or] at nd
    have hxy : ky ≠ kx := nd.1.1
    have hyx : kx ≠ ky := hxy.symm
    by_cases hky : k = ky <;> by_cases hkx : k = kx
    · exact absurd (hky.symm.trans hkx) hxy
    · simp [slookup, hky, hkx, hxy, hyx]
    · simp [slookup, hky, hkx, hxy, hyx]
    · simp [slookup, hky, hkx, hxy, hyx]
  | trans h₁ h₂ ih₁ ih₂ =>
    have nd₂ := ((h₁.map Prod.fst).nodup_iff).mp nd
    exact (ih₁ nd).trans (ih₂ nd₂)

theorem intToU32_ofNat (pt : Nat) (h : pt < 2 ^ 32) :
    intToU32 (Int.ofNat pt) = pt := by
  unfold intToU32
  have h32 : (2 : Int) ^ 32 = 4294967296 := by norm_num
  have h32n : (2 : Nat) ^ 32 = 4294967296 := by norm_num
  rw [h32, Int.ofNat_eq_natCast]
  rw [h32n] at h
  omega

theorem parse_scoreJson (k : Int) (pt : Nat) (fn un : String) (h : pt < 2 ^ 32) :
    parseScoreObj (scoreJson (k, ⟨pt, fn, un⟩)) = some (k, ⟨pt, fn, un⟩) := by
  have hbase : parseScoreObj (scoreJson (k, ⟨pt, fn, un⟩)) =
      some (k, ⟨intToU32 (Int.ofNat pt), fn, un⟩) := rfl
  rw [hbase, intToU32_ofNat pt h]

theorem restore_go (enum : List (Int × Score)) :
    ∀ acc : List (Int × Score),
      (∀ e ∈ enum, e.2.point_ < 2 ^ 32) →
      (∀ e ∈ enum, slookup e.1 acc = none) →
      (enum.map Prod.fst).Nodup →
      (enum.map scoreJson).foldl
        (fun sc j =>
          match parseScoreObj j with
          | none => sc
          | some e => emplaceScore sc e) acc = acc ++ enum := by
  induction enum with
  | nil => intro acc _ _ _; simp
  | cons e rest ih =>
    intro acc hpts hdisj hnd
    obtain ⟨k, pt, fn, un⟩ := e
    have hparse : parseScoreObj (scoreJson (k, ⟨pt, fn, un⟩)) = some (k, ⟨pt, fn, un⟩) :=
      parse_scoreJson k pt fn un (hpts _ (List.mem_cons_self _ _))
    have hempl : emplaceScore acc (k, ⟨pt, fn, un⟩) = acc ++ [(k, ⟨pt, fn, un⟩)] := by
      simp [emplaceScore, hdisj _ (List.mem_cons_self _ _)]
    simp only [List.map_cons, List.foldl_cons, hparse, hempl]
    simp only [List.map_cons, List.nodup_cons] at hnd
    have hdisj' : ∀ f ∈ rest, slookup f.1 (acc ++ [(k, ⟨pt, fn, un⟩)]) = none := by
      intro f hf
      have hne : f.1 ≠ k := by
        intro hkk
        exact hnd.1 (by
          rw [← hkk]
          exact List.mem_map_of_mem Prod.fst hf)
      rw [slookup_append_of_none _ _ _ (hdisj _ (List.mem_cons_of_mem _ hf))]
      simp [slookup, hne]
    have hih := ih (acc ++ [(k, ⟨pt, fn, un⟩)])
      (fun f hf => hpts f (List.mem_cons_of_mem _ hf)) hdisj' hnd.2
    rw [hih]
    simp

theorem restoreScores_roundtrip (enum : List (Int × Score))
    (hpts : ∀ e ∈ enum, e.2.point_ < 2 ^ 32)
    (hnd : (enum.map Prod.fst).Nodup) :
    restoreScores (enum.map scoreJson) = enum := by
  have h := restore_go enum [] hpts (fun e _ => rfl) hnd
  simpa [restoreScores] using h

/-- C4: serializing a session's durable state (chat id, deck name, an
enumeration of its scoreboard) and restoring the snapshot into a fresh
registry yields a session whose scoreboard is identical to the original
— every participant id maps to the same point, full name and username —
while the restored session has no in-flight card and a freshly created
deck for the snapshot's deck name (the next card it shows is an undrawn
card of a fresh deck, never the previously in-flight question). -/
theorem C4_save_restore_roundtrip (s : SessionT) (enum : List (Int × Score)) (d : DeckT)
    (hperm : enum.Perm s.scores_)
    (hnd : (enum.map Prod.fst).Nodup)
    (hpts : ∀ e ∈ enum, e.2.point_ < 2 ^ 32)
    (hdeck : createDeck s.deck_.name = some d) :
    ∃ o : SessionObj,
      slookup (1 : Nat) (initSessionFromJson ⟨[], []⟩
          (snapshotJson s.chat_id_ s.deck_.name enum)).heap = some o ∧
      slookup s.chat_id_ (initSessionFromJson ⟨[], []⟩
          (snapshotJson s.chat_id_ s.deck_.name enum)).map = some (1 : Nat) ∧
      (∀ k, slookup k o.sess.scores_ = slookup k s.scores_) ∧
      o.sess.current_card_ = none ∧
      o.sess.deck_ = d ∧
      o.sess.chat_id_ = s.chat_id_ := by
  have hre : restoreScores (enum.map scoreJson) = enum :=
    restoreScores_roundtrip enum hpts hnd
  have h1 : (snapshotJson s.chat_id_ s.deck_.name enum).isObj = true := rfl
  have h2 : (snapshotJson s.chat_id_ s.deck_.name enum).intField "chat_id" =
      some s.chat_id_ := rfl
  have h3 : (snapshotJson s.chat_id_ s.deck_.name enum).strField "deck_name" =
      some s.deck_.name := rfl
  have h4 : (snapshotJson s.chat_id_ s.deck_.name enum).arrField "scores" =
      some (enum.map scoreJson) := rfl
  have hnew : newSession s.chat_id_ s.deck_.name =
      some { chat_id_ := s.chat_id_, deck_ := d, scores_ := [], current_card_ := none,
             should_stop_ := false, timeout_ := defaultTimeout,
             next_delay_ := defaultNextDelay, last_msg_id_ := 0 } := by
    simp [newSession, hdeck]
  have hcreate : createSession ⟨[], []⟩ s.chat_id_ s.deck_.name =
      (some 1,
        ⟨[(1, ⟨{ chat_id_ := s.chat_id_, deck_ := d, scores_ := [], current_card_ := none,
                 should_stop_ := false, timeout_ := defaultTimeout,
                 next_delay_ := defaultNextDelay, last_msg_id_ := 0 }, 1⟩)],
         [(s.chat_id_, 1)]⟩) := by
    simp [createSession, slookup, hnew, freshAddr]
  have hinit : initSessionFromJson ⟨[], []⟩ (snapshotJson s.chat_id_ s.deck_.name enum) =
      ⟨[(1, ⟨{ chat_id_ := s.chat_id_, deck_ := d, scores_ := enum, current_card_ := none,
               should_stop_ := false, timeout_ := defaultTimeout,
               next_delay_ := defaultNextDelay, last_msg_id_ := 0 }, 1⟩)],
       [(s.chat_id_, 1)]⟩ := by
    simp only [initSessionFromJson, h1, h2, h3, h4, Bool.not_true, Bool.false_eq_true,
      if_false, hcreate]
    simp [updateAt, hre]
  refine ⟨⟨{ chat_id_ := s.chat_id_, deck_ := d, scores_ := enum, current_card_ := none,
             should_stop_ := false, timeout_ := defaultTimeout,
             next_delay_ := defaultNextDelay, last_msg_id_ := 0 }, 1⟩,
    ?_, ?_, ?_, rfl, rfl, rfl⟩
  · rw [hinit]; rfl
  · rw [hinit]; simp [slookup]
  · intro k
    exact lookup_eq_of_perm hperm hnd k

/-- Witness for C4: a two-entry scoreboard for chat 9 on the valid deck
name survives the save/restore round trip. -/
theorem C4_save_restore_roundtrip_witness :
    ∃ o : SessionObj,
      slookup (1 : Nat) (initSessionFromJson ⟨[], []⟩
          (snapshotJson 9 "tozai_line" [(7, ⟨2, "Ann", "ann"⟩), (8, ⟨1, "Bob", "bob"⟩)])).heap =
        some o ∧
      slookup (9 : Int) (initSessionFromJson ⟨[], []⟩
          (snapshotJson 9 "tozai_line" [(7, ⟨2, "Ann", "ann"⟩), (8, ⟨1, "Bob", "bob"⟩)])).map =
        some (1 : Nat) ∧
      (∀ k, slookup k o.sess.scores_ =
        slookup k [((7 : Int), (⟨2, "Ann", "ann"⟩ : Score)), (8, ⟨1, "Bob", "bob"⟩)]) ∧
      o.sess.current_card_ = none ∧
      o.sess.deck_ = ⟨"tozai_line", tozaiCards⟩ ∧
      o.sess.chat_id_ = (9 : Int) := by
  have h := C4_save_restore_roundtrip
    { chat_id_ := 9, deck_ := ⟨"tozai_line", tozaiCards⟩,
      scores_ := [(7, ⟨2, "Ann", "ann"⟩), (8, ⟨1, "Bob", "bob"⟩)],
      current_card_ := none, should_stop_ := false, timeout_ := 30,
      next_delay_ := 5, last_msg_id_ := 0 }
    [(7, ⟨2, "Ann", "ann"⟩), (8, ⟨1, "Bob", "bob"⟩)]
    ⟨"tozai_line", tozaiCards⟩
    (List.Perm.refl _) (by decide) (by decide) rfl
  exact h

/-- C1 (amended): every ranking `sendFinishMessage` can compute — any
point-descending sort of any enumeration of the scoreboard map — is
sorted in descending order by point and is a permutation of the
scoreboard; ties are in no particular order (the map's iteration order
is unspecified and `std::sort` is not stable).  In particular, for
points [3,1,3] inserted in that order, the first and third inserted
participants are adjacent and both precede the second in every
computable ranking. -/
theorem C1_final_ranking_descending :
    (∀ (enum ranked board : List (Int × Score)), enum.Perm board →
      IsFinalRanking enum ranked →
      SortedByPointDesc ranked ∧ ranked.Perm board) ∧
    (∀ (enum ranked : List (Int × Score)),
      enum.Perm [((1 : Int), (⟨3, "A", "a"⟩ : Score)), (2, ⟨1, "B", "b"⟩), (3, ⟨3, "C", "c"⟩)] →
      IsFinalRanking enum ranked →
      ranked = [((1 : Int), (⟨3, "A", "a"⟩ : Score)), (3, ⟨3, "C", "c"⟩), (2, ⟨1, "B", "b"⟩)] ∨
      ranked = [((3 : Int), (⟨3, "C", "c"⟩ : Score)), (1, ⟨3, "A", "a"⟩), (2, ⟨1, "B", "b"⟩)]) := by
  constructor
  · intro enum ranked board henum hrank
    exact ⟨hrank.2, hrank.1.trans henum⟩
  · intro enum ranked henum hrank
    obtain ⟨hperm, hsort⟩ := hrank
    have hB : ranked.Perm
        [((1 : Int), (⟨3, "A", "a"⟩ : Score)), (2, ⟨1, "B", "b"⟩), (3, ⟨3, "C", "c"⟩)] :=
      hperm.trans henum
    have hnd : ranked.Nodup := (hB.nodup_iff).mpr (by decide)
    have hlen : ranked.length = 3 := by rw [hB.length_eq]; rfl
    rcases ranked with _ | ⟨a, _ | ⟨b, _ | ⟨c, _ | ⟨d, t⟩⟩⟩⟩
    · simp at hlen
    · simp at hlen
    · simp at hlen
    case cons.cons.cons.cons =>
      simp at hlen
    have ha : a ∈
        [((1 : Int), (⟨3, "A", "a"⟩ : Score)), (2, ⟨1, "B", "b"⟩), (3, ⟨3, "C", "c"⟩)] :=
      hB.subset (by simp)
    have hb : b ∈
        [((1 : Int), (⟨3, "A", "a"⟩ : Score)), (2, ⟨1, "B", "b"⟩), (3, ⟨3, "C", "c"⟩)] :=
      hB.subset (by simp)
    have hc : c ∈
        [((1 : Int), (⟨3, "A", "a"⟩ : Score)), (2, ⟨1, "B", "b"⟩), (3, ⟨3, "C", "c"⟩)] :=
      hB.subset (by simp)
    simp only [List.mem_cons, List.not_mem_nil, or_false] at ha hb hc
    rcases ha with rfl | rfl | rfl <;> rcases hb with rfl | rfl | rfl <;>
      rcases hc with rfl | rfl | rfl <;>
      first
        | exact absurd hnd (by decide)
        | exact absurd hsort (by decide)
        | exact Or.inl rfl
        | exact Or.inr rfl

/-- Counterexample for C1 as stated: even when the map enumerates the
scoreboard in exact insertion order, `[e3, e1, e2]` is a ranking the
unstable sort is allowed to produce (it is a point-descending
permutation of the enumeration), yet the two 3-point participants
appear in the reverse of their insertion order — so "participants with
equal points appear in their original ScoreBoard insertion order" is
false. -/
theorem C1_final_ranking_counterexample :
    IsFinalRanking
      [((1 : Int), (⟨3, "A", "a"⟩ : Score)), (2, ⟨1, "B", "b"⟩), (3, ⟨3, "C", "c"⟩)]
      [((3 : Int), (⟨3, "C", "c"⟩ : Score)), (1, ⟨3, "A", "a"⟩), (2, ⟨1, "B", "b"⟩)] ∧
    ¬ TiesRespectInsertion
      [((1 : Int), (⟨3, "A", "a"⟩ : Score)), (2, ⟨1, "B", "b"⟩), (3, ⟨3, "C", "c"⟩)]
      [((3 : Int), (⟨3, "C", "c"⟩ : Score)), (1, ⟨3, "A", "a"⟩), (2, ⟨1, "B", "b"⟩)] := by
  constructor
  · exact ⟨by decide, by decide⟩
  · decide

/-- Witness for C1 (amended): the insertion-order enumeration of the
[3,1,3] board, ranked as `[e1, e3, e2]`, is point-descending and is one
of the two permitted orders. -/
theorem C1_final_ranking_descending_witness :
    SortedByPointDesc
      [((1 : Int), (⟨3, "A", "a"⟩ : Score)), (3, ⟨3, "C", "c"⟩), (2, ⟨1, "B", "b"⟩)] ∧
    ([((1 : Int), (⟨3, "A", "a"⟩ : Score)), (3, ⟨3, "C", "c"⟩), (2, ⟨1, "B", "b"⟩)] =
        [((1 : Int), (⟨3, "A", "a"⟩ : Score)), (3, ⟨3, "C", "c"⟩), (2, ⟨1, "B", "b"⟩)] ∨
      [((1 : Int), (⟨3, "A", "a"⟩ : Score)), (3, ⟨3, "C", "c"⟩), (2, ⟨1, "B", "b"⟩)] =
        [((3 : Int), (⟨3, "C", "c"⟩ : Score)), (1, ⟨3, "A", "a"⟩), (2, ⟨1, "B", "b"⟩)]) :=
  ⟨(C1_final_ranking_descending.1
      [((1 : Int), (⟨3, "A", "a"⟩ : Score)), (2, ⟨1, "B", "b"⟩), (3, ⟨3, "C", "c"⟩)]
      [((1 : Int), (⟨3, "A", "a"⟩ : Score)), (3, ⟨3, "C", "c"⟩), (2, ⟨1, "B", "b"⟩)]
      [((1 : Int), (⟨3, "A", "a"⟩ : Score)), (2, ⟨1, "B", "b"⟩), (3, ⟨3, "C", "c"⟩)]
      (List.Perm.refl _) ⟨by decide, by decide⟩).1,
   C1_final_ranking_descending.2
      [((1 : Int), (⟨3, "A", "a"⟩ : Score)), (2, ⟨1, "B", "b"⟩), (3, ⟨3, "C", "c"⟩)]
      [((1 : Int), (⟨3, "A", "a"⟩ : Score)), (3, ⟨3, "C", "c"⟩), (2, ⟨1, "B", "b"⟩)]
      (List.Perm.refl _) ⟨by decide, by decide⟩⟩

end MuikaJqftu
